import Mathlib

/-!
Verification of the Rust-Audio-Downloader frontend core (TypeScript sources:
state.ts, api.ts, utils.ts, ui.ts, main.ts) through a shallow embedding in
Lean 4.  JS numbers used for progress values are modelled as rationals,
optional or nullable values as Option, and the single mutable ClientState as
a record threaded through the translated functions.
-/

namespace AudioDownloader

/-! ## Data model (state.ts) -/

inductive JobState
  | WAITING
  | WORKING
  | COMPLETE
  | FAILED
deriving DecidableEq, Repr

structure QueueItem where
  id : String
  youtube_url : String
  title : String
  artist : String
  thumbnail_url : Option String := none
  duration : Option Rat := none
  state : JobState
  progress : Option Rat := none
  error : Option String := none
deriving DecidableEq, Repr

structure VersionInfo where
  current : String
  latest : Option String := none
  is_latest : Option Bool := none
  consistency : Option String := none
  release_url : Option String := none
deriving DecidableEq, Repr

structure PreviewState where
  id : String
  url : String
deriving DecidableEq, Repr

def API_BASE : String := "http://127.0.0.1:47815"

structure ClientState where
  queue : List QueueItem
  version : Option VersionInfo
  format : String
  exportFormat : String
  dir : String
  preview : PreviewState
  isBusy : Bool
  busyCount : Int
  busyMessage : String
  urlError : String
  isAdding : Bool
deriving DecidableEq, Repr

/-- The initial value of the `state` constant in state.ts. -/
def initState : ClientState :=
  { queue := []
    version := none
    format := "flac"
    exportFormat := "xlsx"
    dir := ""
    preview := { id := "", url := "" }
    isBusy := false
    busyCount := 0
    busyMessage := ""
    urlError := ""
    isAdding := false }

/-! ## Formatting utilities (utils.ts)

`Math.round` in JS rounds half toward positive infinity; on the rationals
this is the floor of the value plus one half. -/

/-- JS Math.round on a rational value: floor of the value plus one half. -/
def jsRound (q : Rat) : Int := ⌊q + 1/2⌋

/-- utils.ts stateLabel: maps a job state and a (nullable) progress value to
the human label.  The TS switch is exhaustive over the four-variant union. -/
def stateLabel : JobState → Option Rat → String
  | .WAITING, _ => "Pending"
  | .WORKING, progress =>
      match progress with
      | some p => if p ≥ 100 then "Saving" else toString (jsRound p) ++ "%"
      | none => "0%"
  | .COMPLETE, _ => "Finished"
  | .FAILED, _ => "Failed"

/-- The abstract content of a rendered status badge.  `fill width label`
stands for the badge-fill span (with the given percent width) followed by the
badge-text span; `labelOnly label` stands for the badge-text span alone. -/
inductive Badge
  | fill (width : Rat) (label : String)
  | labelOnly (label : String)
deriving DecidableEq, Repr

/-- utils.ts badgeContentFor, with the produced markup abstracted to `Badge`. -/
def badgeContentFor : JobState → Option Rat → String → Badge
  | .WORKING, some p, label => .fill p label
  | _, _, label => .labelOnly label

/-- ui.ts renderQueue line 163: clamp a numeric progress to [0, 100]
(`Math.min(100, Math.max(0, item.progress))`). -/
def clampProgress (p : Rat) : Rat := min 100 (max 0 p)

/-- The progress value renderQueue passes on: clamped when numeric, null
otherwise. -/
def progressValueOf (progress : Option Rat) : Option Rat :=
  progress.map clampProgress

/-- The status label renderQueue computes for an item: stateLabel applied to
the clamped progress. -/
def displayedLabel (s : JobState) (progress : Option Rat) : String :=
  stateLabel s (progressValueOf progress)

/-- The badge renderQueue computes for an item: badgeContentFor applied to
the clamped progress and the displayed label. -/
def displayedBadge (s : JobState) (progress : Option Rat) : Badge :=
  badgeContentFor s (progressValueOf progress) (displayedLabel s progress)

/-! ## URL validation (utils.ts isValidYoutubeUrl)

isValidYoutubeUrl calls the WHATWG `URL` constructor, a platform builtin
whose code is not part of this repository. -/

/-- Modelled from the spec: the result of the WHATWG URL parse used by
isValidYoutubeUrl (a platform builtin absent from src).  Only the fields the
validator reads are kept: `protocol` (scheme with trailing colon),
`hostname`, `pathname`, and the keys of `searchParams`. -/
structure ParsedURL where
  protocol : String
  hostname : String
  pathname : String
  searchKeys : List String
deriving DecidableEq, Repr

def isSchemeChar (c : Char) : Bool :=
  c.isAlphanum || c == '+' || c == '-' || c == '.'

/-- Split a character list at every occurrence of `sep`. -/
def splitOnChar (sep : Char) : List Char → List (List Char)
  | [] => [[]]
  | x :: xs =>
    match splitOnChar sep xs with
    | [] => [[x]]
    | cur :: rest => if x == sep then [] :: cur :: rest else (x :: cur) :: rest

/-- The keys of a URL query string: split on ampersands, drop empty parts,
keep the text before the first equals sign of each part. -/
def queryKeysOf (qs : List Char) : List String :=
  (splitOnChar '&' qs).filterMap fun part =>
    if part = [] then none
    else some (String.mk ((part.span (fun c => c != '=')).1))

/-- Modelled from the spec: a WHATWG-style URL parse (the platform builtin
`new URL(value)` is not in src).  A missing colon, an ill-formed scheme, or an
empty host after `//` is a parse failure, matching the spec: any parse
failure is a rejection.  Hostnames and schemes are lowercased as the builtin
does; userinfo, ports beyond stripping, and percent-decoding are not needed
by the validator and are simplified away. -/
def parseURL (value : String) : Option ParsedURL :=
  let cs := (value.data.dropWhile (·.isWhitespace)).reverse.dropWhile (·.isWhitespace) |>.reverse
  let (schemeCs, rest) := cs.span (fun c => c != ':')
  match rest with
  | [] => none
  | _ :: afterColon =>
    if schemeCs = [] then none
    else if ¬ ((schemeCs.headD '0').isAlpha ∧ schemeCs.all isSchemeChar) then none
    else
      let protocol := String.mk (schemeCs.map Char.toLower) ++ ":"
      match afterColon with
      | '/' :: '/' :: afterSlashes =>
        let (authority, rest2) := afterSlashes.span (fun c => c != '/' && c != '?' && c != '#')
        let hostCs := (authority.span (fun c => c != ':')).1
        if hostCs = [] then none
        else
          let (pathCs, rest3) := rest2.span (fun c => c != '?' && c != '#')
          let pathname := if pathCs = [] then "/" else String.mk pathCs
          let keys :=
            match rest3 with
            | '?' :: qs => queryKeysOf ((qs.span (fun c => c != '#')).1)
            | _ => []
          some { protocol := protocol
                 hostname := String.mk (hostCs.map Char.toLower)
                 pathname := pathname
                 searchKeys := keys }
      | _ =>
        let (pathCs, rest3) := afterColon.span (fun c => c != '?' && c != '#')
        let keys :=
          match rest3 with
          | '?' :: qs => queryKeysOf ((qs.span (fun c => c != '#')).1)
          | _ => []
        some { protocol := protocol
               hostname := ""
               pathname := String.mk pathCs
               searchKeys := keys }

/-- JS `s.replace(pat, "")` with a one-character string pattern: remove the
first occurrence of the character, used for `url.pathname.replace("/", "")`. -/
def removeFirstChar (sep : Char) : List Char → List Char
  | [] => []
  | x :: xs => if x == sep then xs else x :: removeFirstChar sep xs

/-- utils.ts isValidYoutubeUrl, over the modelled URL parse. -/
def isValidYoutubeUrl (value : String) : Bool :=
  match parseURL value with
  | none => false
  | some url =>
    if ¬ (["http:", "https:"].contains url.protocol) then false
    else
      let host := String.mk (url.hostname.data.map Char.toLower)
      if host == "youtu.be" then
        removeFirstChar '/' url.pathname.data != []
      else if host == "www.youtube.com" || host == "youtube.com" || host == "m.youtube.com" then
        "/watch".data.isPrefixOf url.pathname.data && url.searchKeys.contains "v"
      else false

/-! ## Busy-counter discipline (main.ts setBusy)

setBusy ends by calling render(), which mutates no client state; the state
transition alone is embedded.  The optional `message` parameter is truthy in
JS exactly when it is present and non-empty. -/

/-- main.ts setBusy. -/
def setBusy (st : ClientState) (active : Bool) (message : Option String) : ClientState :=
  if active then
    let st1 := { st with busyCount := st.busyCount + 1 }
    let st2 :=
      match message with
      | some m => if m ≠ "" then { st1 with busyMessage := m } else st1
      | none => st1
    { st2 with isBusy := true }
  else
    let st1 := { st with busyCount := max 0 (st.busyCount - 1) }
    if st1.busyCount = 0 then { st1 with isBusy := false, busyMessage := "" } else st1

/-- One call to setBusy: a blocking operation starting (with the optional
message passed) or finishing. -/
inductive BusyCall
  | start (message : Option String)
  | finish
deriving DecidableEq, Repr

def applyBusyCall (st : ClientState) : BusyCall → ClientState
  | .start m => setBusy st true m
  | .finish => setBusy st false none

/-- Run a sequence of setBusy calls from a state. -/
def runBusy (st : ClientState) (calls : List BusyCall) : ClientState :=
  calls.foldl applyBusyCall st

/-! ## Transport results and queue refresh (api.ts, main.ts loadQueue)

Transport functions own no state; each is embedded as the pure mapping from
the HTTP outcome it can observe to the value it returns.  fetchQueue returns
null (here `none`) on a non-success status, the parsed item list otherwise;
fetchDefaultDir returns the empty string on a non-success status. -/

/-- api.ts fetchQueue: the value returned for a given response
(`ok` status, parsed body). -/
def fetchQueueResult (ok : Bool) (body : List QueueItem) : Option (List QueueItem) :=
  if ok then some body else none

/-- api.ts fetchDefaultDir: the value returned for a given response. -/
def fetchDefaultDirResult (ok : Bool) (path : String) : String :=
  if ok then path else ""

/-- main.ts loadDefaultDir: stores the fetchDefaultDir result in state.dir. -/
def loadDefaultDir (st : ClientState) (ok : Bool) (path : String) : ClientState :=
  { st with dir := fetchDefaultDirResult ok path }

/-- The preview-player audio element: its current src (the empty string when
the src attribute is absent). -/
structure Player where
  src : String
deriving DecidableEq, Repr

/-- Observable operations performed on the preview-player element. -/
inductive PlayerAct
  | pause
  | removeSrc
  | load
  | assign (src : String)
  | play
deriving DecidableEq, Repr

/-- ui.ts syncPreviewPlayer, player part (lines 202-223): computes the next
source from the preview state, and either tears the player down (empty
source), reassigns the source (changed source), or leaves it untouched;
autoplay requests playback in the latter two cases.  Returns the player
after the call and the operations performed on it. -/
def syncPreviewPlayer (st : ClientState) (player : Player) (autoplay : Bool) :
    Player × List PlayerAct :=
  let nextSrc := if st.preview.url != "" then API_BASE ++ st.preview.url else ""
  if nextSrc == "" then
    if player.src != "" then ({ src := "" }, [.pause, .removeSrc, .load])
    else (player, [.pause])
  else if player.src != nextSrc then
    ({ src := nextSrc }, .assign nextSrc :: if autoplay then [.play] else [])
  else
    (player, if autoplay then [.play] else [])

/-- ui.ts syncPreviewPlayer, status-line part (lines 189-200). -/
def previewStatusText (st : ClientState) : String :=
  if st.preview.id ≠ "" then
    let current := st.queue.find? fun item => item.id == st.preview.id
    let title := (current.map (·.title)).getD "" |>.trim
    let artist := (current.map (·.artist)).getD "" |>.trim
    let label :=
      if title ≠ "" ∨ artist ≠ "" then
        String.intercalate " — " ([title, artist].filter (· ≠ ""))
      else st.preview.id
    "Now playing: " ++ label
  else "Idle"

/-- main.ts loadQueue, given the fetchQueue result: on null keep everything;
on success replace the queue and, when the previewed id is set but no longer
present, reset the preview and synchronise the player (which stops it).
Returns the state, the player, and the player operations performed. -/
def loadQueue (st : ClientState) (fetched : Option (List QueueItem)) (player : Player) :
    ClientState × Player × List PlayerAct :=
  match fetched with
  | none => (st, player, [])
  | some queue =>
    let st1 := { st with queue := queue }
    if st1.preview.id != "" && !(st1.queue.any fun item => item.id == st1.preview.id) then
      let st2 := { st1 with preview := { id := "", url := "" } }
      let (p, acts) := syncPreviewPlayer st2 player false
      (st2, p, acts)
    else
      (st1, player, [])

/-- main.ts previewItem, given the fetchPreview result: on null do nothing,
otherwise set the preview target and synchronise the player with autoplay. -/
def previewItem (st : ClientState) (id : String) (fetched : Option String) (player : Player) :
    ClientState × Player × List PlayerAct :=
  match fetched with
  | none => (st, player, [])
  | some url =>
    let st1 := { st with preview := { id := id, url := url } }
    let (p, acts) := syncPreviewPlayer st1 player true
    (st1, p, acts)

/-! ## Mutation sequencing (main.ts addQueue, deleteItem, clearQueue,
importQueue)

Each orchestrator action is embedded as the sequence of calls it performs,
in program order, as a function of the success flag its transport call
reports (deleteQueueItem and postClearQueue report nothing). -/

inductive Mutation
  | add (url : String)
  | delete (id : String)
  | clear (mode : String)
  | importFile
deriving DecidableEq, Repr

/-- One call performed by an orchestrator action. -/
inductive Step
  | setAdding (b : Bool)
  | render
  | renderQueue
  | busyInc (message : String)
  | busyDec
  | mutate (m : Mutation)
  | refetchQueue
deriving DecidableEq, Repr

/-- main.ts addQueue: the calls performed when postAddQueue reports `ok`.
The refetch and queue re-render run only when ok; the finally block always
runs. -/
def addQueueSteps (url : String) (ok : Bool) : List Step :=
  [.setAdding true, .render, .busyInc "Fetching video info...", .mutate (.add url)]
    ++ (if ok then [.refetchQueue, .renderQueue] else [])
    ++ [.busyDec, .setAdding false, .render]

/-- main.ts deleteItem. -/
def deleteItemSteps (id : String) : List Step :=
  [.mutate (.delete id), .refetchQueue, .renderQueue]

/-- main.ts clearQueue. -/
def clearQueueSteps (mode : String) : List Step :=
  [.mutate (.clear mode), .refetchQueue, .renderQueue]

/-- main.ts importQueue: the calls performed when postImportQueue reports
`ok`. -/
def importQueueSteps (ok : Bool) : List Step :=
  [.busyInc "Loading items from file (yt-dlp can take a while)...", .mutate .importFile]
    ++ (if ok then [.refetchQueue, .renderQueue] else [])
    ++ [.busyDec]

/-- The sequencing contract claimed for a mutating action: the mutation
request, then (possibly with other calls in between) a full queue refetch,
then a re-render of the queue section. -/
def MutateRefetchRender (m : Mutation) (steps : List Step) : Prop :=
  [Step.mutate m, Step.refetchQueue, Step.renderQueue].Sublist steps

/-! ## Add-URL submission paths (main.ts bindEvents lines 78-112)

Both handlers read the input field value, mutate state.urlError, and perform
effects; each is embedded separately, as a function from the field value and
state to the new state and the effects performed, transcribed from its own
listener. -/

inductive SubmitEffect
  | render
  | dispatchAdd (url : String)
  | clearInput
deriving DecidableEq, Repr

/-- JS String.prototype.trim. -/
def jsTrim (s : String) : String :=
  String.mk ((s.data.dropWhile (·.isWhitespace)).reverse.dropWhile (·.isWhitespace) |>.reverse)

/-- The addBtn click listener (main.ts lines 78-94).  `input` is none when
the urlInput element is missing. -/
def addBtnClick (input : Option String) (st : ClientState) :
    ClientState × List SubmitEffect :=
  match input with
  | none => (st, [])
  | some raw =>
    let value := jsTrim raw
    if value = "" then (st, [])
    else if ¬ isValidYoutubeUrl value then
      ({ st with urlError := "Please enter a valid YouTube URL." }, [.render])
    else
      ({ st with urlError := "" }, [.dispatchAdd value, .clearInput])

/-- The urlInput keydown listener (main.ts lines 96-112), for the pressed
`key`; the listener exists only when the input element does. -/
def urlInputKeydown (key : String) (raw : String) (st : ClientState) :
    ClientState × List SubmitEffect :=
  if key ≠ "Enter" then (st, [])
  else
    let value := jsTrim raw
    if value = "" then (st, [])
    else if ¬ isValidYoutubeUrl value then
      ({ st with urlError := "Please enter a valid YouTube URL." }, [.render])
    else
      ({ st with urlError := "" }, [.dispatchAdd value, .clearInput])

/-! ## Download All guard (main.ts downloadAll) -/

/-- main.ts downloadAll: returns the state after the call and the format of
the download request issued, if any.  An empty state.dir is falsy, so the
action returns before issuing the request. -/
def downloadAll (st : ClientState) : ClientState × Option String :=
  if st.dir = "" then (st, none) else (st, some st.format)

/-! ## Lemmas about setBusy -/

theorem setBusy_true_busyCount (st : ClientState) (m : Option String) :
    (setBusy st true m).busyCount = st.busyCount + 1 := by
  unfold setBusy
  cases m with
  | none => simp
  | some s => by_cases h : s = "" <;> simp [h]

theorem setBusy_true_isBusy (st : ClientState) (m : Option String) :
    (setBusy st true m).isBusy = true := by
  unfold setBusy
  cases m with
  | none => simp
  | some s => by_cases h : s = "" <;> simp [h]

theorem setBusy_false_busyCount (st : ClientState) :
    (setBusy st false none).busyCount = max 0 (st.busyCount - 1) := by
  unfold setBusy
  by_cases h : max 0 (st.busyCount - 1) = 0 <;> simp [h]

theorem setBusy_false_isBusy (st : ClientState) :
    (setBusy st false none).isBusy =
      if max 0 (st.busyCount - 1) = 0 then false else st.isBusy := by
  unfold setBusy
  by_cases h : max 0 (st.busyCount - 1) = 0 <;> simp [h]

theorem setBusy_false_busyMessage (st : ClientState) :
    (setBusy st false none).busyMessage =
      if max 0 (st.busyCount - 1) = 0 then "" else st.busyMessage := by
  unfold setBusy
  by_cases h : max 0 (st.busyCount - 1) = 0 <;> simp [h]

/-! ## Lemmas about runBusy -/

theorem runBusy_nil (st : ClientState) : runBusy st [] = st := rfl

theorem runBusy_cons (st : ClientState) (c : BusyCall) (l : List BusyCall) :
    runBusy st (c :: l) = runBusy (applyBusyCall st c) l := rfl

theorem runBusy_append (st : ClientState) (a b : List BusyCall) :
    runBusy st (a ++ b) = runBusy (runBusy st a) b :=
  List.foldl_append applyBusyCall st a b

/-- The busy invariant of the claim is preserved by any sequence of setBusy
calls: the counter never goes negative and the flag tracks its positivity. -/
theorem busy_invariant (l : List BusyCall) :
    ∀ st : ClientState, 0 ≤ st.busyCount → (st.isBusy = true ↔ 0 < st.busyCount) →
      0 ≤ (runBusy st l).busyCount ∧
        ((runBusy st l).isBusy = true ↔ 0 < (runBusy st l).busyCount) := by
  induction l with
  | nil => intro st h1 h2; exact ⟨h1, h2⟩
  | cons c l ih =>
    intro st h1 h2
    rw [runBusy_cons]
    cases c with
    | start m =>
      refine ih _ ?_ ?_
      · simp only [applyBusyCall, setBusy_true_busyCount]; omega
      · simp only [applyBusyCall, setBusy_true_busyCount, setBusy_true_isBusy]
        constructor
        · intro _; omega
        · intro _; trivial
    | finish =>
      refine ih _ ?_ ?_
      · simp only [applyBusyCall, setBusy_false_busyCount]; omega
      · simp only [applyBusyCall, setBusy_false_busyCount, setBusy_false_isBusy]
        by_cases h : max 0 (st.busyCount - 1) = 0
        · simp [h]
        · simp only [if_neg h]
          have hpos : 0 < st.busyCount := by omega
          have : st.isBusy = true := h2.mpr hpos
          simp [this]; omega

/-- Running the start calls for a list of messages adds the number of
messages to the counter and, when there is at least one, leaves the busy
flag set. -/
theorem runBusy_starts (msgs : List (Option String)) :
    ∀ st : ClientState,
      (runBusy st (msgs.map BusyCall.start)).busyCount = st.busyCount + msgs.length ∧
      (msgs ≠ [] → (runBusy st (msgs.map BusyCall.start)).isBusy = true) := by
  induction msgs with
  | nil => intro st; simp [runBusy_nil]
  | cons m ms ih =>
    intro st
    simp only [List.map_cons, runBusy_cons, applyBusyCall]
    refine ⟨?_, fun _ => ?_⟩
    · rw [(ih _).1, setBusy_true_busyCount]
      simp only [List.length_cons]
      push_cast
      omega
    · rcases List.eq_nil_or_concat ms with h | h
      · subst h; simp only [List.map_nil, runBusy_nil]; exact setBusy_true_isBusy st m
      · have := (ih (setBusy st true m)).2
        apply this
        rintro rfl
        rcases h with ⟨_, _, h⟩
        exact absurd h (by simp)

/-- Running `k` finish calls from a state whose counter is at least `k` and
positive, with the busy flag set: the counter decreases by `k`; the flag
stays set while calls remain outstanding, and once the counter reaches zero
the flag is cleared and the message emptied. -/
theorem runBusy_finishes (k : Nat) :
    ∀ st : ClientState, (k : Int) ≤ st.busyCount → 0 < st.busyCount → st.isBusy = true →
      (runBusy st (List.replicate k BusyCall.finish)).busyCount = st.busyCount - k ∧
      ((k : Int) < st.busyCount →
        (runBusy st (List.replicate k BusyCall.finish)).isBusy = true) ∧
      ((k : Int) = st.busyCount →
        (runBusy st (List.replicate k BusyCall.finish)).isBusy = false ∧
        (runBusy st (List.replicate k BusyCall.finish)).busyMessage = "") := by
  induction k with
  | zero =>
    intro st _ h0 hb
    refine ⟨by simp [runBusy_nil], fun _ => hb, fun h => ?_⟩
    omega
  | succ k ih =>
    intro st hk h0 hb
    rw [List.replicate_succ, runBusy_cons]
    have hcount : (applyBusyCall st BusyCall.finish).busyCount = st.busyCount - 1 := by
      simp only [applyBusyCall, setBusy_false_busyCount]; omega
    by_cases hone : st.busyCount = 1
    · have hk0 : k = 0 := by omega
      subst hk0
      have hc0 : (applyBusyCall st BusyCall.finish).busyCount = 0 := by omega
      refine ⟨by simpa [runBusy_nil, hc0] using by omega, fun h => ?_, fun _ => ?_⟩
      · omega
      · simp only [List.replicate_zero, runBusy_nil]
        constructor
        · simp only [applyBusyCall, setBusy_false_isBusy, if_pos (by omega :
            max 0 (st.busyCount - 1) = 0)]
        · simp only [applyBusyCall, setBusy_false_busyMessage, if_pos (by omega :
            max 0 (st.busyCount - 1) = 0)]
    · have hgt : 1 < st.busyCount := by omega
      have hb' : (applyBusyCall st BusyCall.finish).isBusy = true := by
        simp only [applyBusyCall, setBusy_false_isBusy, if_neg (by omega :
          ¬ max 0 (st.busyCount - 1) = 0)]
        exact hb
      have := ih (applyBusyCall st BusyCall.finish) (by omega) (by omega) hb'
      refine ⟨by rw [this.1, hcount]; push_cast; omega, fun h => ?_, fun h => ?_⟩
      · exact this.2.1 (by omega)
      · exact this.2.2 (by omega)

/-- A prefix of `a ++ b` is a prefix of `a`, or `a` followed by a prefix of
`b`. -/
theorem prefix_append_cases {α : Type} (a : List α) :
    ∀ {b p : List α}, p <+: a ++ b → p <+: a ∨ ∃ q, q <+: b ∧ p = a ++ q := by
  induction a with
  | nil => intro b p h; exact Or.inr ⟨p, by simpa using h, rfl⟩
  | cons x a ih =>
    intro b p h
    cases p with
    | nil => exact Or.inl List.nil_prefix
    | cons y p =>
      rw [List.cons_append] at h
      obtain ⟨rfl, h'⟩ := List.cons_prefix_cons.mp h
      rcases ih h' with hp | ⟨q, hq, rfl⟩
      · exact Or.inl (List.cons_prefix_cons.mpr ⟨rfl, hp⟩)
      · exact Or.inr ⟨q, hq, rfl⟩

/-- A prefix of a mapped list is the image of a prefix. -/
theorem prefix_of_map {α β : Type} (f : α → β) (l : List α) (p : List β)
    (h : p <+: l.map f) : ∃ l0, l0 <+: l ∧ p = l0.map f := by
  refine ⟨l.take p.length, List.take_prefix _ _, ?_⟩
  rw [List.map_take]
  exact List.prefix_iff_eq_take.mp h

/-- A prefix of a replicated list is a shorter replicated list. -/
theorem prefix_of_replicate {α : Type} (n : Nat) (c : α) (p : List α)
    (h : p <+: List.replicate n c) : p = List.replicate p.length c ∧ p.length ≤ n := by
  have hlen : p.length ≤ n := by
    have := h.length_le
    simpa using this
  constructor
  · conv_lhs => rw [List.prefix_iff_eq_take.mp h]
    rw [List.take_replicate, Nat.min_eq_left hlen]
  · exact hlen

/-- Claim C1.  Busy-counter discipline: starting from busyCount = 0, for N
setBusy(true, message) calls (arbitrary optional messages) followed by their
N matching setBusy(false) calls, isBusy stays true from the first increment
until the Nth decrement; after the Nth decrement isBusy is false and
busyMessage is the empty string; and on every prefix of the call sequence
busyCount is nonnegative and isBusy holds exactly when busyCount is
positive. -/
theorem busy_counter_discipline (msgs : List (Option String)) (st0 : ClientState)
    (hc : st0.busyCount = 0) (hb : st0.isBusy = false) (hne : msgs ≠ []) :
    (∀ p ∈ (msgs.map BusyCall.start ++ List.replicate msgs.length BusyCall.finish).inits,
        p ≠ [] → p ≠ msgs.map BusyCall.start ++ List.replicate msgs.length BusyCall.finish →
        (runBusy st0 p).isBusy = true) ∧
    (runBusy st0 (msgs.map BusyCall.start ++
        List.replicate msgs.length BusyCall.finish)).isBusy = false ∧
    (runBusy st0 (msgs.map BusyCall.start ++
        List.replicate msgs.length BusyCall.finish)).busyMessage = "" ∧
    (∀ p ∈ (msgs.map BusyCall.start ++ List.replicate msgs.length BusyCall.finish).inits,
        0 ≤ (runBusy st0 p).busyCount ∧
        ((runBusy st0 p).isBusy = true ↔ 0 < (runBusy st0 p).busyCount)) := by
  have hN : 0 < msgs.length := List.length_pos.mpr hne
  have hst1 := runBusy_starts msgs st0
  have hst1c : (runBusy st0 (msgs.map BusyCall.start)).busyCount = (msgs.length : Int) := by
    rw [hst1.1, hc]; ring
  have hst1b : (runBusy st0 (msgs.map BusyCall.start)).isBusy = true := hst1.2 hne
  have hfin := runBusy_finishes msgs.length (runBusy st0 (msgs.map BusyCall.start))
    (le_of_eq hst1c.symm) (by rw [hst1c]; exact_mod_cast hN) hst1b
  have hfull : runBusy st0 (msgs.map BusyCall.start ++
      List.replicate msgs.length BusyCall.finish) =
      runBusy (runBusy st0 (msgs.map BusyCall.start))
        (List.replicate msgs.length BusyCall.finish) := runBusy_append _ _ _
  have hend := hfin.2.2 hst1c.symm
  refine ⟨?_, by rw [hfull]; exact hend.1, by rw [hfull]; exact hend.2, ?_⟩
  · intro p hp hpne hpt
    rw [List.mem_inits] at hp
    rcases prefix_append_cases _ hp with hA | ⟨q, hq, rfl⟩
    · obtain ⟨ms, _, rfl⟩ := prefix_of_map _ _ _ hA
      have hmne : ms ≠ [] := by
        intro h; subst h; exact hpne rfl
      exact (runBusy_starts ms st0).2 hmne
    · obtain ⟨hq_eq, hqlen⟩ := prefix_of_replicate _ _ _ hq
      have hqne : q.length ≠ msgs.length := by
        intro h
        apply hpt
        rw [hq_eq, h]
      rw [runBusy_append]
      conv_lhs => rw [hq_eq]
      exact (runBusy_finishes q.length (runBusy st0 (msgs.map BusyCall.start))
        (by rw [hst1c]; exact_mod_cast hqlen)
        (by rw [hst1c]; exact_mod_cast hN) hst1b).2.1
        (by rw [hst1c]; exact_mod_cast Nat.lt_of_le_of_ne hqlen hqne)
  · intro p hp
    exact busy_invariant p st0 (by omega) (by rw [hb, hc]; simp)

/-- Witness for claim C1: two overlapping operations, then their two
completions, starting from the initial client state. -/
theorem busy_counter_discipline_witness :
    (∀ p ∈ ([some "Fetching video info...",
          none].map BusyCall.start ++ List.replicate 2 BusyCall.finish).inits,
        p ≠ [] → p ≠ [some "Fetching video info...",
          none].map BusyCall.start ++ List.replicate 2 BusyCall.finish →
        (runBusy initState p).isBusy = true) ∧
    (runBusy initState ([some "Fetching video info...",
        none].map BusyCall.start ++ List.replicate 2 BusyCall.finish)).isBusy = false ∧
    (runBusy initState ([some "Fetching video info...",
        none].map BusyCall.start ++ List.replicate 2 BusyCall.finish)).busyMessage = "" ∧
    (∀ p ∈ ([some "Fetching video info...",
          none].map BusyCall.start ++ List.replicate 2 BusyCall.finish).inits,
        0 ≤ (runBusy initState p).busyCount ∧
        ((runBusy initState p).isBusy = true ↔ 0 < (runBusy initState p).busyCount)) :=
  busy_counter_discipline [some "Fetching video info...", none] initState rfl rfl
    (by decide)

/-- Claim C2, counterexample.  The claim asserts that every mutating action
refetches the queue regardless of the reported success or failure of the
mutation; but when postAddQueue reports failure, addQueue returns before
loadQueue, so no refetch happens in that run. -/
theorem mutation_sequencing_cex :
    ¬ MutateRefetchRender (.add "https://youtu.be/abc123")
        (addQueueSteps "https://youtu.be/abc123" false) := by
  intro h
  have hmem : Step.refetchQueue ∈ addQueueSteps "https://youtu.be/abc123" false :=
    h.subset (by decide)
  exact absurd hmem (by decide)

/-- Claim C2, amended.  Delete and clear always perform mutation, then full
queue refetch, then queue re-render.  Add and import, whose transports
report success, perform the refetch and queue re-render exactly when the
mutation reports success; on reported failure the queue is not refetched. -/
theorem mutation_sequencing_amended (url id mode : String) (ok : Bool) :
    MutateRefetchRender (.delete id) (deleteItemSteps id) ∧
    MutateRefetchRender (.clear mode) (clearQueueSteps mode) ∧
    (MutateRefetchRender (.add url) (addQueueSteps url ok) ↔ ok = true) ∧
    (MutateRefetchRender .importFile (importQueueSteps ok) ↔ ok = true) := by
  refine ⟨List.Sublist.refl _, List.Sublist.refl _, ?_, ?_⟩
  · cases ok with
    | false =>
      simp only [Bool.false_eq_true, iff_false]
      intro h
      have hmem : Step.refetchQueue ∈ addQueueSteps url false := h.subset (by simp)
      simp [addQueueSteps] at hmem
    | true =>
      simp only [iff_true]
      unfold MutateRefetchRender addQueueSteps
      simp only [if_pos rfl]
      exact .cons _ (.cons _ (.cons _ (.cons₂ _ (.cons₂ _ (.cons₂ _ (List.nil_sublist _))))))
  · cases ok with
    | false =>
      simp only [Bool.false_eq_true, iff_false]
      intro h
      have hmem : Step.refetchQueue ∈ importQueueSteps false := h.subset (by simp)
      simp [importQueueSteps] at hmem
    | true =>
      simp only [iff_true]
      unfold MutateRefetchRender importQueueSteps
      simp only [if_pos rfl]
      exact .cons _ (.cons₂ _ (.cons₂ _ (.cons₂ _ (List.nil_sublist _))))

/-- Claim C3.  The per-item status label is a pure total function of the
state and the clamped progress: WAITING maps to Pending, COMPLETE to
Finished, FAILED to Failed for every progress; WORKING with absent progress
maps to 0 percent; WORKING with clamped progress at least 100 (for example
137) maps to Saving; WORKING with clamped progress below 100 maps to the
progress rounded to the nearest integer suffixed with a percent sign, so
42.6 maps to 43 percent. -/
theorem state_label_spec :
    (∀ p : Option Rat, displayedLabel .WAITING p = "Pending") ∧
    (∀ p : Option Rat, displayedLabel .COMPLETE p = "Finished") ∧
    (∀ p : Option Rat, displayedLabel .FAILED p = "Failed") ∧
    displayedLabel .WORKING none = "0%" ∧
    (∀ q : Rat, 100 ≤ clampProgress q → displayedLabel .WORKING (some q) = "Saving") ∧
    (∀ q : Rat, clampProgress q < 100 →
      displayedLabel .WORKING (some q) = toString (jsRound (clampProgress q)) ++ "%") ∧
    displayedLabel .WORKING (some 137) = "Saving" ∧
    displayedLabel .WORKING (some (426/10)) = "43%" := by
  have hsaving : ∀ q : Rat, 100 ≤ clampProgress q →
      displayedLabel .WORKING (some q) = "Saving" := by
    intro q h
    simp only [displayedLabel, progressValueOf, Option.map_some', stateLabel]
    rw [if_pos h]
  have hpercent : ∀ q : Rat, clampProgress q < 100 →
      displayedLabel .WORKING (some q) = toString (jsRound (clampProgress q)) ++ "%" := by
    intro q h
    simp only [displayedLabel, progressValueOf, Option.map_some', stateLabel]
    rw [if_neg (not_le.mpr h)]
  refine ⟨fun p => by cases p <;> rfl, fun p => by cases p <;> rfl,
    fun p => by cases p <;> rfl, rfl, hsaving, hpercent, ?_, ?_⟩
  · exact hsaving 137 (by norm_num [clampProgress])
  · rw [hpercent (426/10) (by norm_num [clampProgress])]
    have h1 : clampProgress (426/10) = 426/10 := by norm_num [clampProgress]
    have h2 : jsRound (426/10 : Rat) = 43 := by norm_num [jsRound]
    rw [h1, h2]
    rfl

/-- Witness for claim C3: a WORKING item whose clamped progress reaches 100
is labelled Saving. -/
theorem state_label_spec_witness :
    displayedLabel .WORKING (some 100) = "Saving" :=
  state_label_spec.2.2.2.2.1 100 (le_min (le_refl 100) (le_max_right 0 100))

/-- Claim C4.  URL validation is a total boolean function and accepts or
rejects the listed inputs: the short-link host with a non-empty id is valid,
with an empty id invalid; the canonical host with a watch path and a v query
parameter is valid, without the v parameter invalid; a non-http scheme is
invalid; a string that does not parse as a URL is invalid. -/
theorem url_validation_spec :
    (∀ s : String, isValidYoutubeUrl s = true ∨ isValidYoutubeUrl s = false) ∧
    isValidYoutubeUrl "https://youtu.be/abc123" = true ∧
    isValidYoutubeUrl "https://youtu.be/" = false ∧
    isValidYoutubeUrl "https://www.youtube.com/watch?v=abc123" = true ∧
    isValidYoutubeUrl "https://www.youtube.com/watch" = false ∧
    isValidYoutubeUrl "ftp://youtube.com/watch?v=x" = false ∧
    isValidYoutubeUrl "not a url" = false :=
  ⟨fun s => by
      cases h : isValidYoutubeUrl s with
      | false => exact Or.inr rfl
      | true => exact Or.inl rfl,
    by decide, by decide, by decide, by decide, by decide, by decide⟩

/-- Claim C5.  A failed refetch (fetchQueue returning null) leaves the whole
client state, the player, and the performed player operations untouched; a
subsequent successful refetch replaces state.queue with the new snapshot. -/
theorem poll_resilience (st : ClientState) (player : Player) (q : List QueueItem)
    (body : List QueueItem) :
    loadQueue st none player = (st, player, []) ∧
    loadQueue st (fetchQueueResult false body) player = (st, player, []) ∧
    (loadQueue st (some q) player).1.queue = q ∧
    (loadQueue (loadQueue st none player).1 (some q) player).1.queue = q := by
  have hq : ∀ s : ClientState, (loadQueue s (some q) player).1.queue = q := by
    intro s
    simp only [loadQueue]
    by_cases h : ({ s with queue := q } : ClientState).preview.id != "" &&
        !(q.any fun item => item.id == ({ s with queue := q } : ClientState).preview.id)
    · simp [h]
    · simp [h]
  exact ⟨rfl, rfl, hq st, hq _⟩

/-- Helper: membership of pause in the operations of a synchronisation run
with an empty preview url. -/
theorem pause_mem_sync_of_empty_url (st : ClientState) (player : Player)
    (h : st.preview.url = "") :
    PlayerAct.pause ∈ (syncPreviewPlayer st player false).2 := by
  simp only [syncPreviewPlayer, h]
  by_cases hp : player.src != ""
  · simp [hp]
  · simp [hp]

/-- Claim C6.  After every successful queue refresh, either the preview id
is empty or some item of the applied snapshot carries it; and when the
previewed item is absent from the snapshot, the preview is reset to the
empty target and the player is paused. -/
theorem preview_reset_on_refresh (st : ClientState) (q : List QueueItem) (player : Player) :
    ((loadQueue st (some q) player).1.preview.id = "" ∨
      ((loadQueue st (some q) player).1.queue.any
        fun item => item.id == (loadQueue st (some q) player).1.preview.id) = true) ∧
    (st.preview.id ≠ "" → (q.any fun item => item.id == st.preview.id) = false →
      (loadQueue st (some q) player).1.preview = { id := "", url := "" } ∧
      PlayerAct.pause ∈ (loadQueue st (some q) player).2.2) := by
  by_cases hcond : ({ st with queue := q } : ClientState).preview.id != "" &&
      !(({ st with queue := q } : ClientState).queue.any
        fun item => item.id == ({ st with queue := q } : ClientState).preview.id)
  · constructor
    · simp only [loadQueue, hcond, if_pos]
      exact Or.inl trivial
    · intro _ _
      simp only [loadQueue, hcond, if_pos]
      exact ⟨trivial, pause_mem_sync_of_empty_url _ player rfl⟩
  · constructor
    · simp only [loadQueue, hcond, if_neg, Bool.not_eq_true]
      simp only [Bool.and_eq_true, bne_iff_ne, ne_eq, Bool.not_eq_true', not_and,
        not_not] at hcond
      by_cases hid : st.preview.id = ""
      · exact Or.inl hid
      · exact Or.inr (by simpa using hcond hid)
    · intro hid hq
      simp only [Bool.and_eq_true, bne_iff_ne, ne_eq, Bool.not_eq_true', not_and,
        not_not] at hcond
      exact absurd (hcond hid) (by simp [hq])

/-- Witness for claim C6: a previewed item missing from the empty snapshot
resets the preview and pauses the player. -/
theorem preview_reset_on_refresh_witness :
    (loadQueue { initState with preview := { id := "x", url := "/preview/x" } }
        (some []) { src := "s" }).1.preview = { id := "", url := "" } ∧
    PlayerAct.pause ∈ (loadQueue { initState with preview := { id := "x", url := "/preview/x" } }
        (some []) { src := "s" }).2.2 :=
  (preview_reset_on_refresh { initState with preview := { id := "x", url := "/preview/x" } }
    [] { src := "s" }).2 (by decide) rfl

/-- Claim C7.  Whenever syncPreviewPlayer runs while the computed stream URL
(API_BASE concatenated with the preview url) equals the current player src,
the player is left untouched and the only possible operation is the autoplay
playback request; and a src assignment is performed only for the computed
URL, and only when it differs from the current src. -/
theorem preview_src_idempotent (st : ClientState) (player : Player) (autoplay : Bool) :
    (st.preview.url ≠ "" → player.src = API_BASE ++ st.preview.url →
      (syncPreviewPlayer st player autoplay).1 = player ∧
      (syncPreviewPlayer st player autoplay).2 = (if autoplay then [PlayerAct.play] else [])) ∧
    (∀ s, PlayerAct.assign s ∈ (syncPreviewPlayer st player autoplay).2 →
      s = API_BASE ++ st.preview.url ∧ player.src ≠ s) := by
  constructor
  · intro hu hsrc
    have hu' : (st.preview.url != "") = true := bne_iff_ne.mpr hu
    have hne : (API_BASE ++ st.preview.url == "") = false := by
      simp only [beq_eq_false_iff_ne, ne_eq]
      intro h
      exact hu (by simpa [API_BASE] using congrArg String.data h)
    have hsame : (player.src != API_BASE ++ st.preview.url) = false := by
      simp [hsrc]
    simp [syncPreviewPlayer, hu', hne, hsame]
  · intro s hs
    simp only [syncPreviewPlayer] at hs
    by_cases hu : (st.preview.url != "") = true
    · simp only [hu, if_pos] at hs
      have hne : (API_BASE ++ st.preview.url == "") = false := by
        simp only [beq_eq_false_iff_ne, ne_eq]
        intro h
        exact bne_iff_ne.mp hu (by simpa [API_BASE] using congrArg String.data h)
      rw [if_neg (by simp [hne])] at hs
      by_cases hdiff : (player.src != API_BASE ++ st.preview.url) = true
      · simp only [hdiff, if_pos, List.mem_cons] at hs
        rcases hs with h | h
        · cases h
          exact ⟨rfl, bne_iff_ne.mp hdiff⟩
        · exfalso
          by_cases ha : autoplay = true <;> simp [ha] at h
      · simp only [Bool.not_eq_true] at hdiff
        rw [if_neg (by simp [hdiff])] at hs
        exfalso
        by_cases ha : autoplay = true <;> simp [ha] at hs
    · simp only [Bool.not_eq_true] at hu
      by_cases hp : (player.src != "") = true <;> simp [hp, hu] at hs


/-- Witness for claim C7: synchronising while the computed stream URL equals
the current src performs no operation at all without autoplay. -/
theorem preview_src_idempotent_witness :
    (syncPreviewPlayer { initState with preview := { id := "a", url := "/preview/a" } }
        { src := API_BASE ++ "/preview/a" } false).1 = { src := API_BASE ++ "/preview/a" } ∧
    (syncPreviewPlayer { initState with preview := { id := "a", url := "/preview/a" } }
        { src := API_BASE ++ "/preview/a" } false).2 =
      (if false then [PlayerAct.play] else []) :=
  (preview_src_idempotent { initState with preview := { id := "a", url := "/preview/a" } }
    { src := API_BASE ++ "/preview/a" } false).1 (by decide) rfl

/-- Helper: the two clamping orders agree on the rationals. -/
theorem clamp_comm (p : Rat) : clampProgress p = max 0 (min 100 p) := by
  unfold clampProgress
  rcases le_total p 0 with h | h
  · rw [max_eq_left h, min_eq_right (by norm_num : (0:Rat) ≤ 100),
      min_eq_right (h.trans (by norm_num : (0:Rat) ≤ 100)), max_eq_left h]
  · rw [max_eq_right h, max_eq_right (le_min (by norm_num : (0:Rat) ≤ 100) h)]

/-- Claim C8.  A WORKING item with a numeric server progress renders a badge
with a fill element whose width is the progress clamped to [0, 100]; items
in every other state render label-only, with no fill element. -/
theorem working_progress_bar :
    (∀ p : Rat, displayedBadge .WORKING (some p) =
      .fill (max 0 (min 100 p)) (displayedLabel .WORKING (some p))) ∧
    (∀ (s : JobState) (progress : Option Rat), s ≠ .WORKING →
      displayedBadge s progress = .labelOnly (displayedLabel s progress)) := by
  constructor
  · intro p
    simp only [displayedBadge, progressValueOf, Option.map_some', badgeContentFor]
    rw [clamp_comm]
  · intro s progress hs
    cases s with
    | WAITING => cases progress <;> rfl
    | WORKING => exact absurd rfl hs
    | COMPLETE => cases progress <;> rfl
    | FAILED => cases progress <;> rfl

/-- Witness for claim C8: a FAILED item renders label-only. -/
theorem working_progress_bar_witness :
    displayedBadge .FAILED (some 50) = .labelOnly (displayedLabel .FAILED (some 50)) :=
  working_progress_bar.2 .FAILED (some 50) (by decide)

/-- Claim C9.  For every input-field value and client state, the Add-button
click path and the Enter-keypress path of add-URL submission produce the
same state and the same effects; both skip a blank value, set the error
message on an invalid URL, and on a valid URL clear the error, dispatch the
add with the trimmed value, and clear the input field. -/
theorem submit_paths_equivalent (raw : String) (st : ClientState) :
    addBtnClick (some raw) st = urlInputKeydown "Enter" raw st ∧
    (jsTrim raw = "" → addBtnClick (some raw) st = (st, [])) ∧
    (jsTrim raw ≠ "" → isValidYoutubeUrl (jsTrim raw) = false →
      addBtnClick (some raw) st =
        ({ st with urlError := "Please enter a valid YouTube URL." }, [.render])) ∧
    (jsTrim raw ≠ "" → isValidYoutubeUrl (jsTrim raw) = true →
      addBtnClick (some raw) st =
        ({ st with urlError := "" }, [.dispatchAdd (jsTrim raw), .clearInput])) := by
  refine ⟨?_, ?_, ?_, ?_⟩
  · simp only [addBtnClick, urlInputKeydown, ne_eq, not_true_eq_false, if_false,
      if_neg (by simp : ¬ ("Enter" : String) ≠ "Enter")]
  · intro h
    simp [addBtnClick, h]
  · intro h hv
    simp [addBtnClick, h, hv]
  · intro h hv
    simp [addBtnClick, h, hv]

/-- Witness for claim C9: a valid URL dispatches the add and clears the
input on the click path. -/
theorem submit_paths_equivalent_witness :
    addBtnClick (some "https://youtu.be/abc123") initState =
      ({ initState with urlError := "" },
        [.dispatchAdd (jsTrim "https://youtu.be/abc123"), .clearInput]) :=
  (submit_paths_equivalent "https://youtu.be/abc123" initState).2.2.2 (by decide) (by decide)

/-- Claim C10.  The Download All action returns without issuing a request
and without modifying state when state.dir is empty (the value a failed
fetchDefaultDir stores at startup); it issues the request, for the selected
format, exactly when state.dir is non-empty. -/
theorem download_all_guard (st : ClientState) (path : String) :
    (st.dir = "" → downloadAll st = (st, none)) ∧
    (downloadAll st).1 = st ∧
    ((downloadAll st).2 = some st.format ↔ st.dir ≠ "") ∧
    downloadAll (loadDefaultDir st false path) = (loadDefaultDir st false path, none) := by
  refine ⟨fun h => by simp [downloadAll, h], ?_, ?_, ?_⟩
  · by_cases h : st.dir = "" <;> simp [downloadAll, h]
  · by_cases h : st.dir = "" <;> simp [downloadAll, h]
  · have hdir : (loadDefaultDir st false path).dir = "" := rfl
    simp [downloadAll, hdir]

/-- Witness for claim C10: from the initial state (empty dir) Download All
issues nothing. -/
theorem download_all_guard_witness :
    downloadAll initState = (initState, none) :=
  (download_all_guard initState "").1 rfl

end AudioDownloader
